import Mathlib

/-
Verification of the Content Replacement Engine of the Worker-GitHubRaw
repository (src/index.ts).  The TypeScript source is shallowly embedded:
JSON values become an inductive type, the mutable module-level cache becomes
explicit state passing, `fetch`/`Date.now()` become parameters, and thrown
exceptions become `Except`.  JavaScript regular-expression replacement for
the two fixed patterns of the source is modelled by explicit scanners over
character lists; the user-supplied regex of `regex` mode is abstracted by a
scan parameter producing the decomposition of the content into literal and
matched chunks.
-/

namespace GHRaw

/-- String constants used by the embedding (kept as named definitions). -/
def kEnv : String := "env"

def kTemplate : String := "template"

def kRegex : String := "regex"

def kKeep : String := "keep"

def kRemove : String := "remove"

def kError : String := "error"

def kNull : String := "null"

def kTrue : String := "true"

def kFalse : String := "false"

def kObjectText : String := "[object Object]"

def kComma : String := ","

def kColon : String := ":"

def kQuote : String := "\""

def kLBrace : String := "\x7b"

def kRBrace : String := "\x7d"

def kUrl : String := "url"

def kMethod : String := "method"

def kHeaders : String := "headers"

def kFiles : String := "files"

def kMode : String := "mode"

def kPattern : String := "pattern"

def kApi : String := "api"

def kMappings : String := "mappings"

def kStatic : String := "static"

def kOnError : String := "onError"

def kCacheKey : String := "cache"

def kEmpty : String := ""

/-- Model of a JSON value (numbers restricted to integers, which covers
every value exercised by the configuration format and the claims). -/
inductive Json where
  | null : Json
  | bool (b : Bool) : Json
  | num (n : Int) : Json
  | str (s : String) : Json
  | arr (xs : List Json) : Json
  | obj (fields : List (String × Json)) : Json

/-- Property lookup on a JSON object (objects produced by JSON.parse have
unique keys, so first-match lookup is the object semantics). -/
def lookupField (fs : List (String × Json)) (k : String) : Option Json :=
  (fs.find? (fun kv => kv.1 == k)).map (fun kv => kv.2)

/-- JavaScript truthiness of a JSON value (`if (apiData)` in the source). -/
def jsTruthy (j : Json) : Bool :=
  match j with
  | Json.null => false
  | Json.bool b => b
  | Json.num n => if n = 0 then false else true
  | Json.str s => if s = kEmpty then false else true
  | Json.arr _ => true
  | Json.obj _ => true

mutual

/-- JavaScript `String(value)` on a JSON-derived value, as used at
`replacements[placeholder] = String(value)` in `applyReplaceRule`:
null coerces to the four-letter null text, booleans and integers to their
decimal text, a plain object to the object-Object text and an array to the
comma-join of its coerced elements (Array.prototype.toString). -/
def jsToString : Json → String
  | Json.null => kNull
  | Json.bool b => if b then kTrue else kFalse
  | Json.num n => toString n
  | Json.str s => s
  | Json.obj _ => kObjectText
  | Json.arr xs => String.intercalate kComma (jsArrElems xs)

/-- Element coercion inside Array.prototype.join: a null element becomes the
empty string, everything else coerces as usual. -/
def jsArrElems : List Json → List String
  | [] => []
  | Json.null :: rest => kEmpty :: jsArrElems rest
  | j :: rest => jsToString j :: jsArrElems rest

end

/-- Splits a character list on the dot character, keeping empty segments,
matching JavaScript `path.split('.')`. -/
def splitDotAux : List Char → List Char → List String
  | [], acc => [String.mk acc.reverse]
  | c :: rest, acc =>
    if c = '.' then String.mk acc.reverse :: splitDotAux rest []
    else splitDotAux rest (c :: acc)

/-- Models `path.split('.')` of `getValueByPath`. -/
def splitDot (s : String) : List String := splitDotAux s.toList []

/-- Tests the `/^\d+$/` check of `getValueByPath`. -/
def isDigitsL (cs : List Char) : Bool := !cs.isEmpty && cs.all (fun c => c.isDigit)

/-- Models `parseInt(key, 10)` on an all-digit key. -/
def parseNatDigits (cs : List Char) : Nat :=
  cs.foldl (fun n c => n * 10 + (c.toNat - 48)) 0

/-- One step `current[key]` (after parseInt on all-digit keys) of the
traversal loop of `getValueByPath`: array indexing for digit keys, object
property lookup otherwise (a digit key on an object looks up the decimal
string of the parsed number, as JavaScript coerces the number back to a
property name); exotic string properties (length, methods) are outside the
modelled value space. -/
def jsIndex (j : Json) (k : String) : Option Json :=
  if isDigitsL k.toList then
    match j with
    | Json.arr xs => xs.get? (parseNatDigits k.toList)
    | Json.obj fs => lookupField fs (toString (parseNatDigits k.toList))
    | Json.str s => (s.toList.get? (parseNatDigits k.toList)).map
        (fun c => Json.str (String.mk [c]))
    | _ => none
  else
    match j with
    | Json.obj fs => lookupField fs k
    | _ => none

/-- Traversal loop of `getValueByPath`: before consuming each key the loop
returns undefined (`none`) when the current value is null or undefined. -/
def getPathAux : List String → Option Json → Option Json
  | [], cur => cur
  | k :: rest, cur =>
    match cur with
    | none => none
    | some Json.null => none
    | some j => getPathAux rest (jsIndex j k)

/-- Models `getValueByPath(obj, path)` (src/index.ts lines 222-240); `none`
stands for undefined, `some Json.null` for a resolved null. -/
def getValueByPath (obj : Json) (path : String) : Option Json :=
  getPathAux (splitDot path) (some obj)

/-- Model of the `api` field of a rule (duck-typed: every sub-field may be
absent). -/
structure ApiConfig where
  url : Option String := none
  method : Option String := none
  headers : Option (List (String × String)) := none
deriving DecidableEq

/-- Model of one element of the parsed REPLACE_CONFIG array.  Every field is
optional because the parser performs no shape validation (the source
interface declares `files` required but nothing enforces it). -/
structure ReplaceRule where
  files : Option (List String) := none
  mode : Option String := none
  pattern : Option String := none
  api : Option ApiConfig := none
  mappings : Option (List (String × String)) := none
  static : Option (List (String × String)) := none
  onError : Option String := none
  cache : Option Int := none
deriving DecidableEq

/-- JSON string quoting used by the cache-key serialization (escaping of
special characters elided: configuration strings exercised here contain
none). -/
def quoteJson (s : String) : String := kQuote ++ s ++ kQuote

/-- Serialization of the headers object inside the cache key. -/
def stringifyHeaders (hs : List (String × String)) : String :=
  kLBrace ++ String.intercalate kComma
    (hs.map (fun kv => quoteJson kv.1 ++ kColon ++ quoteJson kv.2)) ++ kRBrace

/-- Models `JSON.stringify(rule.api)`, the cache key of
`fetchReplacementData`; absent (undefined) fields are omitted, field order
normalized to url, method, headers. -/
def stringifyApi (a : ApiConfig) : String :=
  kLBrace ++ String.intercalate kComma (List.filterMap id
    [a.url.map (fun u => quoteJson kUrl ++ kColon ++ quoteJson u),
     a.method.map (fun m => quoteJson kMethod ++ kColon ++ quoteJson m),
     a.headers.map (fun hs => quoteJson kHeaders ++ kColon ++ stringifyHeaders hs)])
    ++ kRBrace

/-- One entry of the module-level `apiCache` map. -/
structure CacheEntry where
  data : Json
  expires : Int

/-- The module-level `apiCache : Map<string, {data, expires}>`, modelled as
an association list in insertion order. -/
abbrev Cache : Type := List (String × CacheEntry)

/-- Models `apiCache.get(key)`. -/
def cacheGet : Cache → String → Option CacheEntry
  | [], _ => none
  | p :: rest, k => if p.1 == k then some p.2 else cacheGet rest k

/-- Models `apiCache.set(key, entry)`: replaces an existing entry in place,
otherwise appends (JavaScript Map insertion-order semantics). -/
def cacheSet : Cache → String → CacheEntry → Cache
  | [], k, e => [(k, e)]
  | p :: rest, k, e =>
    if p.1 == k then (k, e) :: rest else p :: cacheSet rest k e

/-- Models `fetchReplacementData(rule)` (src/index.ts lines 248-290) with
the ambient state made explicit: `cache` is the module cache, `now` is
`Date.now()` in milliseconds, and `network` is the outcome of the
fetch-and-parse-JSON step (`none` covers network failure, a non-ok status
and a non-JSON body, all of which yield null without caching).  The first
component of the result records whether a network fetch was performed, the
second is the returned data (`none` = null), the third the updated cache. -/
def fetchReplacementData (rule : ReplaceRule) (cache : Cache) (now : Int)
    (network : Option Json) : Bool × Option Json × Cache :=
  match rule.api with
  | none => (false, none, cache)
  | some a =>
    match a.url with
    | none => (false, none, cache)
    | some u =>
      if u = kEmpty then (false, none, cache)
      else
        let key := stringifyApi a
        let live : Option Json :=
          match cacheGet cache key with
          | some e => if e.expires > now then some e.data else none
          | none => none
        match live with
        | some d => (false, some d, cache)
        | none =>
          match network with
          | none => (true, none, cache)
          | some d =>
            let ttl := (rule.cache.getD 0) * 1000
            if ttl > 0 then
              (true, some d, cacheSet cache key { data := d, expires := now + ttl })
            else (true, some d, cache)

/-- Record update `replacements[k] = v` on a JavaScript object modelled as
an association list (overwrite in place, else append). -/
def recSet (r : List (String × String)) (k v : String) : List (String × String) :=
  if r.any (fun p => p.1 == k) then
    r.map (fun p => if p.1 == k then (k, v) else p)
  else r ++ [(k, v)]

/-- Property read on the replacements object (`varName in replacements`
followed by `replacements[varName]`). -/
def recGet : List (String × String) → String → Option String
  | [], _ => none
  | p :: rest, k => if p.1 == k then some p.2 else recGet rest k

/-- Models the replacement-map construction of `applyReplaceRule`
(src/index.ts lines 300-319): seed with `Object.assign({}, rule.static)`,
then, given the data returned by `fetchReplacementData` (`apiData`), for
each mapping in order insert `String(value)` whenever the JSON-path value is
not undefined — each insertion overwrites any existing entry, exactly as the
source assignment does. -/
def resolveReplacements (rule : ReplaceRule) (apiData : Option Json) :
    List (String × String) :=
  let base := (rule.static.getD []).foldl (fun r kv => recSet r kv.1 kv.2) []
  match rule.mappings, apiData with
  | some maps, some d =>
    if jsTruthy d then
      maps.foldl (fun r kv =>
        match getValueByPath d kv.2 with
        | some v => recSet r kv.1 (jsToString v)
        | none => r) base
    else base
  | _, _ => base

/-- One piece of the decomposition of the content by a global regex replace:
either a literal stretch, or a match carrying its matched text and the
variable name the callback looks up. -/
inductive Chunk where
  | lit (s : String) : Chunk
  | mtch (text : String) (varName : String) : Chunk

/-- Raw match piece produced by an abstract regex scan: matched text plus
the optional first capturing group. -/
inductive RawChunk where
  | lit (s : String) : RawChunk
  | mtch (text : String) (group : Option String) : RawChunk

/-- Models `const varName = groups[0] || match` of the regex-mode callback
(a missing or empty first group falls back to the whole match). -/
def regexVarName (text : String) (group : Option String) : String :=
  match group with
  | none => text
  | some g => if g = kEmpty then text else g

/-- Converts a raw regex chunk to a chunk with its callback variable name. -/
def toChunk (rc : RawChunk) : Chunk :=
  match rc with
  | RawChunk.lit s => Chunk.lit s
  | RawChunk.mtch t g => Chunk.mtch t (regexVarName t g)

/-- Processes the chunks of one global replace left to right: a resolved
name substitutes its value, an unresolved one follows the error strategy
(`remove` deletes the match, `error` throws — modelled as `Except.error`
carrying the placeholder name — anything else keeps the matched text). -/
def runChunks (repl : List (String × String)) (strategy : String) :
    List Chunk → Except String String
  | [] => Except.ok kEmpty
  | Chunk.lit s :: rest =>
    (runChunks repl strategy rest).map (fun t => s ++ t)
  | Chunk.mtch text name :: rest =>
    match recGet repl name with
    | some v => (runChunks repl strategy rest).map (fun t => v ++ t)
    | none =>
      if strategy = kRemove then
        (runChunks repl strategy rest).map (fun t => t)
      else if strategy = kError then Except.error name
      else (runChunks repl strategy rest).map (fun t => text ++ t)

/-- Reassembles the matched text of an env-mode placeholder from its
captured name. -/
def envText (name : String) : String :=
  String.mk ('$' :: '{' :: 'e' :: 'n' :: 'v' :: ':' :: (name.toList ++ ['}']))

/-- Attempts to match the regex `\$\{env:([^}]+)\}` exactly at the start of
the character list, returning the captured name and the remainder. -/
def tryEnv : List Char → Option (List Char × List Char)
  | '$' :: '{' :: 'e' :: 'n' :: 'v' :: ':' :: r =>
    let name := r.takeWhile (fun c => !(c = '}'))
    match r.dropWhile (fun c => !(c = '}')) with
    | '}' :: tail => if name.isEmpty then none else some (name, tail)
    | _ => none
  | _ => none

/-- Global scan of the content for `/\$\{env:([^}]+)\}/g`: at each position
either a match starts (scan resumes after it) or one literal character is
emitted, exactly the left-to-right non-overlapping semantics of a global
replace.  Fuel is the remaining length. -/
def scanEnvFuel (fuel : Nat) (cs : List Char) : List Chunk :=
  match fuel, cs with
  | _, [] => []
  | 0, _ => []
  | Nat.succ f, c :: rest =>
    match tryEnv (c :: rest) with
    | some (name, tail) =>
      Chunk.mtch (envText (String.mk name)) (String.mk name) :: scanEnvFuel f tail
    | none => Chunk.lit (String.mk [c]) :: scanEnvFuel f rest

/-- Decomposition of the content under env mode. -/
def scanEnv (content : String) : List Chunk :=
  scanEnvFuel content.toList.length content.toList

/-- Models the whitespace test of JavaScript `String.prototype.trim` on the
characters produced by a template placeholder. -/
def isJsSpace (c : Char) : Bool :=
  (c == ' ') || (c == '\t') || (c == '\n') || (c == '\r')

/-- Models `varName.trim()` of template mode. -/
def jsTrim (cs : List Char) : List Char :=
  ((cs.dropWhile isJsSpace).reverse.dropWhile isJsSpace).reverse

/-- Reassembles the matched text of a template-mode placeholder from its raw
(untrimmed) captured characters. -/
def tmplText (raw : List Char) : String :=
  String.mk ('{' :: '{' :: (raw ++ ['}', '}']))

/-- Attempts to match the regex `\{\{([^}]+)\}\}` exactly at the start of
the character list, returning the raw captured characters and the
remainder. -/
def tryTemplate : List Char → Option (List Char × List Char)
  | '{' :: '{' :: r =>
    let raw := r.takeWhile (fun c => !(c = '}'))
    match r.dropWhile (fun c => !(c = '}')) with
    | '}' :: '}' :: tail => if raw.isEmpty then none else some (raw, tail)
    | _ => none
  | _ => none

/-- Global scan of the content for `/\{\{([^}]+)\}\}/g`. -/
def scanTemplateFuel (fuel : Nat) (cs : List Char) : List Chunk :=
  match fuel, cs with
  | _, [] => []
  | 0, _ => []
  | Nat.succ f, c :: rest =>
    match tryTemplate (c :: rest) with
    | some (raw, tail) =>
      Chunk.mtch (tmplText raw) (String.mk (jsTrim raw)) :: scanTemplateFuel f tail
    | none => Chunk.lit (String.mk [c]) :: scanTemplateFuel f rest

/-- Decomposition of the content under template mode. -/
def scanTemplate (content : String) : List Chunk :=
  scanTemplateFuel content.toList.length content.toList

/-- Models `applyReplaceRule(content, rule)` (src/index.ts lines 299-381).
`cache`, `now` and `network` feed the embedded `fetchReplacementData` call;
`regexScan` abstracts the user-supplied regular expression of regex mode: it
yields `none` when the pattern fails to compile, otherwise the decomposition
of the content into literal and match chunks.  The `Except.error` result
models the exception thrown under the `error` strategy of env and template
mode; in regex mode the source wraps both the compilation and the replace
call in one try/catch, so a thrown substitution error is swallowed there and
the untouched content is returned. -/
def applyReplaceRule (content : String) (rule : ReplaceRule) (cache : Cache)
    (now : Int) (network : Option Json)
    (regexScan : String → String → Option (List RawChunk)) :
    Except String String × Cache :=
  let fetched : Option Json × Cache :=
    if rule.api.isSome && rule.mappings.isSome then
      let t := fetchReplacementData rule cache now network
      (t.2.1, t.2.2)
    else (none, cache)
  let replacements := resolveReplacements rule fetched.1
  let strategy :=
    match rule.onError with
    | some s => if s = kEmpty then kKeep else s
    | none => kKeep
  let res : Except String String :=
    if rule.mode = some kEnv then
      runChunks replacements strategy (scanEnv content)
    else if rule.mode = some kTemplate then
      runChunks replacements strategy (scanTemplate content)
    else if rule.mode = some kRegex then
      match rule.pattern with
      | some p =>
        if p = kEmpty then Except.ok content
        else
          match regexScan p content with
          | none => Except.ok content
          | some raw =>
            match runChunks replacements strategy (raw.map toChunk) with
            | Except.ok s => Except.ok s
            | Except.error _ => Except.ok content
      | none => Except.ok content
    else Except.ok content
  (res, fetched.2)

/-- Models the path normalization `pathname.startsWith('/') ? pathname : '/'
+ pathname` of `findMatchingRule`. -/
def normalizeSlash (p : String) : String :=
  match p.toList with
  | '/' :: _ => p
  | _ => String.mk ('/' :: p.toList)

/-- Models `normalizedPath.endsWith(normalizedFile)`. -/
def jsEndsWith (s suffix : String) : Bool :=
  List.isSuffixOf suffix.toList s.toList

/-- Models the per-rule test `rule.files.some(...)` of `findMatchingRule` on
an already-normalized path; a rule whose `files` field is absent makes the
source throw a TypeError (`.some` of undefined), modelled as
`Except.error`. -/
def ruleMatches (np : String) (rule : ReplaceRule) : Except Unit Bool :=
  match rule.files with
  | none => Except.error ()
  | some fs => Except.ok (fs.any (fun file =>
      let nf := normalizeSlash file
      (np == nf) || jsEndsWith np nf))

/-- Iteration of `findMatchingRule` over the rule list. -/
def findRuleAux (np : String) : List ReplaceRule → Except Unit (Option ReplaceRule)
  | [] => Except.ok none
  | r :: rs =>
    match ruleMatches np r with
    | Except.error e => Except.error e
    | Except.ok true => Except.ok (some r)
    | Except.ok false => findRuleAux np rs

/-- Models `findMatchingRule(pathname, rules)` (src/index.ts lines 390-405):
first rule in configuration order with any matching file entry; `none` when
no rule matches; `Except.error` when a rule without a `files` array is
reached. -/
def findMatchingRule (pathname : String) (rules : List ReplaceRule) :
    Except Unit (Option ReplaceRule) :=
  findRuleAux (normalizeSlash pathname) rules

/-- Recognizes a JSON array (`Array.isArray`). -/
def isJsonArray (j : Json) : Bool :=
  match j with
  | Json.arr _ => true
  | _ => false

/-- Extracts a JSON string. -/
def asStr (j : Json) : Option String :=
  match j with
  | Json.str s => some s
  | _ => none

/-- Extracts an array of strings (non-string entries outside the model are
dropped). -/
def asStrList (j : Json) : Option (List String) :=
  match j with
  | Json.arr xs => some (xs.filterMap asStr)
  | _ => none

/-- Extracts an object with string values. -/
def asStrPairs (j : Json) : Option (List (String × String)) :=
  match j with
  | Json.obj fs => some (fs.filterMap (fun kv => (asStr kv.2).map (fun v => (kv.1, v))))
  | _ => none

/-- Extracts an integer. -/
def asInt (j : Json) : Option Int :=
  match j with
  | Json.num n => some n
  | _ => none

/-- Reads the duck-typed `api` sub-object of one rule. -/
def decodeApi (j : Json) : Option ApiConfig :=
  match j with
  | Json.obj fs =>
    some { url := (lookupField fs kUrl).bind asStr,
           method := (lookupField fs kMethod).bind asStr,
           headers := (lookupField fs kHeaders).bind asStrPairs }
  | _ => none

/-- Reads one element of the parsed configuration array as a duck-typed
rule: each field is whatever the object holds at that key, absent
otherwise (the source performs no such validation, it merely uses the
fields at these types at use-time). -/
def decodeRule (j : Json) : ReplaceRule :=
  match j with
  | Json.obj fs =>
    { files := (lookupField fs kFiles).bind asStrList,
      mode := (lookupField fs kMode).bind asStr,
      pattern := (lookupField fs kPattern).bind asStr,
      api := (lookupField fs kApi).bind decodeApi,
      mappings := (lookupField fs kMappings).bind asStrPairs,
      static := (lookupField fs kStatic).bind asStrPairs,
      onError := (lookupField fs kOnError).bind asStr,
      cache := (lookupField fs kCacheKey).bind asInt }
  | _ => {}

/-- Models `parseReplaceConfig(configStr)` (src/index.ts lines 199-211).
`configStr = none` is an unset REPLACE_CONFIG (the empty string is also
falsy and returns early); `jsonParse` abstracts `JSON.parse`, `none`
standing for a thrown parse error, which the source catches. -/
def parseReplaceConfig (configStr : Option String)
    (jsonParse : String → Option Json) : List ReplaceRule :=
  match configStr with
  | none => []
  | some s =>
    if s = kEmpty then []
    else
      match jsonParse s with
      | none => []
      | some j =>
        match j with
        | Json.arr xs => xs.map decodeRule
        | _ => []

/-- Minimal model of the response the proxy hands back to the client. -/
structure SimpleResponse where
  status : Nat
  body : String
deriving DecidableEq

/-- Models the content-replacement phase of `handleGithubFileRequest`
(src/index.ts lines 474-518) after a successful origin fetch (modelled with
status 200): no matching rule passes the body through; a matching rule runs
`applyReplaceRule`; a thrown substitution error yields the 500 response
exactly when the rule's `onError` field is the string `error`, otherwise the
original body is re-fetched and returned (the retry is assumed to return the
same body).  A TypeError thrown while matching (rule without `files`)
escapes the handler and fails the request, modelled as `Except.error`. -/
def handleContentPhase (urlPathname content : String)
    (rules : List ReplaceRule) (cache : Cache) (now : Int)
    (network : Option Json)
    (regexScan : String → String → Option (List RawChunk)) :
    Except Unit SimpleResponse :=
  match findMatchingRule urlPathname rules with
  | Except.error e => Except.error e
  | Except.ok none => Except.ok { status := 200, body := content }
  | Except.ok (some rule) =>
    match (applyReplaceRule content rule cache now network regexScan).1 with
    | Except.ok s => Except.ok { status := 200, body := s }
    | Except.error _ =>
      if rule.onError = some kError then
        Except.ok { status := 500, body := kError }
      else Except.ok { status := 200, body := content }

/-- Regex scan used where regex mode is not exercised. -/
def scan0 : String → String → Option (List RawChunk) := fun _ _ => none

/-- Remote source descriptor shared by the concrete evaluations below. -/
def cfgApi : ApiConfig := { url := some ("https://cfg") }

/-- Concrete rule for claim C1: the placeholder name h appears both in the
static values (value s) and among the remote mappings (path p). -/
def c1rule : ReplaceRule :=
  { mode := some kEnv, files := some ["/a.yml"],
    static := some [(("h"), ("s"))], api := some cfgApi,
    mappings := some [(("h"), ("p"))] }

/-- Concrete remote JSON for claim C1: path p resolves to the string r. -/
def c1data : Json := Json.obj [(("p"), Json.str ("r"))]

/-- Claim C1: the spec states that for every rule and placeholder name
present both in the static values and among the remote-resolved values, the
resolved mapping keeps the static value and a remote value never replaces
it.  Evaluating the source at a failing input shows the opposite: the
replacement map is seeded with the static values first and each remote
mapping assignment then overwrites, so the remote value r replaces the
static value s, and the substituted output contains r. -/
theorem c1_remote_overrides_static :
    recGet (resolveReplacements c1rule (some c1data)) ("h") = some ("r") ∧
    (applyReplaceRule (envText ("h")) c1rule [] 0 (some c1data) scan0).1 =
      Except.ok ("r") :=
  ⟨rfl, rfl⟩

/-- Concrete rule for claim C2 with a wildcard-looking file entry. -/
def c2rule : ReplaceRule := { files := some ["/config/*.yml"], mode := some kEnv }

/-- Claim C2 counterexample: the spec states the pattern /config/*.yml
matches the path /config/app.yml; the source matcher performs only exact or
suffix string comparison, so the rule does not match and no rule is
returned. -/
theorem c2_counterexample :
    findMatchingRule ("/config/app.yml") [c2rule] = Except.ok none :=
  rfl

/-- Claim C2 amended: pattern matching supports no wildcards; a rule
matches a (normalized) request path exactly when some entry of its files
array, normalized to a leading slash, is equal to the path or is a suffix
of it. -/
theorem c2_amended (np : String) (r : ReplaceRule) (fs : List String)
    (h : r.files = some fs) :
    ruleMatches np r = Except.ok true ↔
      ∃ f ∈ fs, np = normalizeSlash f ∨ jsEndsWith np (normalizeSlash f) = true := by
  simp [ruleMatches, h, List.any_eq_true]

/-- Concrete rule for the claim C2 witness: a repo-relative file entry. -/
def c2wrule : ReplaceRule := { files := some ["app.yml"], mode := some kEnv }

/-- Witness for the amended claim C2 at a concrete suffix-matching input. -/
theorem c2_amended_witness :
    ruleMatches ("/config/app.yml") c2wrule = Except.ok true :=
  (c2_amended ("/config/app.yml") c2wrule (["app.yml"]) rfl).mpr
    ⟨("app.yml"), by simp, Or.inr (by decide)⟩

/-- Concrete rule for claim C3: regex mode with onError = error and no
value for the placeholder A. -/
def c3rule : ReplaceRule :=
  { mode := some kRegex, pattern := some ("pat"),
    onError := some kError, files := some ["/custom.conf"] }

/-- Concrete scan for claim C3: the custom pattern compiles and matches the
placeholder text with capture group A inside the content. -/
def c3scan : String → String → Option (List RawChunk) := fun p c =>
  if p = ("pat") ∧ c = ("x=$[A]") then
    some [RawChunk.lit ("x="), RawChunk.mtch ("$[A]") (some ("A"))]
  else none

/-- Claim C3: the spec states that under regex mode with onError = error an
unresolved placeholder aborts the substitution and surfaces a server error,
never returning unrewritten content as success.  Evaluating the source at a
failing input: the try/catch of regex mode wraps the replace call itself, so
the thrown substitution error is swallowed, and the handler returns the
completely unrewritten content with status 200. -/
theorem c3_regex_error_swallowed :
    handleContentPhase ("/custom.conf") ("x=$[A]") [c3rule] [] 0 none c3scan =
      Except.ok { status := 200, body := ("x=$[A]") } :=
  rfl

/-- Concrete rule for claim C4: two mappings, one resolving to an object
and one to an array. -/
def c4rule : ReplaceRule :=
  { api := some cfgApi, mode := some kEnv,
    mappings := some [(("x"), ("o")), (("y"), ("l"))] }

/-- Concrete remote JSON for claim C4. -/
def c4data : Json :=
  Json.obj [(("o"), Json.obj [(("a"), Json.num 1)]),
            (("l"), Json.arr [Json.num 1, Json.num 2])]

/-- Claim C4 counterexample: the spec states an object or array value is
inserted as its JSON text form; the source inserts String(value), so the
object o becomes the text [object Object] (not its JSON text) and the array
l becomes the comma-join 1,2 (not a JSON array text). -/
theorem c4_counterexample :
    recGet (resolveReplacements c4rule (some c4data)) ("x") = some kObjectText ∧
    kObjectText ≠ (kLBrace ++ ("\"a\":1") ++ kRBrace) ∧
    recGet (resolveReplacements c4rule (some c4data)) ("y") = some ("1,2") :=
  ⟨rfl, by decide, rfl⟩

/-- Claim C4 amended: a resolved value is inserted as its JavaScript
String() coercion: numbers and booleans keep their canonical decimal or
true/false text, an object becomes the text [object Object], and an array
becomes the comma-join of its coerced elements. -/
theorem c4_amended (rule : ReplaceRule) (d v : Json) (ph path : String)
    (hm : rule.mappings = some [(ph, path)]) (hs : rule.static = none)
    (ht : jsTruthy d = true) (hv : getValueByPath d path = some v) :
    recGet (resolveReplacements rule (some d)) ph = some (jsToString v) ∧
    (∀ n : Int, jsToString (Json.num n) = toString n) ∧
    (∀ b : Bool, jsToString (Json.bool b) = (if b then kTrue else kFalse)) ∧
    (∀ fields, jsToString (Json.obj fields) = kObjectText) ∧
    (∀ xs, jsToString (Json.arr xs) = String.intercalate kComma (jsArrElems xs)) := by
  refine ⟨?_, fun n => rfl, fun b => rfl, fun fields => rfl, fun xs => rfl⟩
  simp [resolveReplacements, hm, hs, ht, hv, recSet, recGet]

/-- Concrete rule for the claim C4 witness. -/
def c4wrule : ReplaceRule :=
  { api := some cfgApi, mode := some kEnv, mappings := some [(("x"), ("o"))] }

/-- Concrete remote JSON for the claim C4 witness. -/
def c4wdata : Json := Json.obj [(("o"), Json.obj [(("a"), Json.num 1)])]

/-- Witness for the amended claim C4 at a concrete object-valued input. -/
theorem c4_amended_witness :
    recGet (resolveReplacements c4wrule (some c4wdata)) ("x") =
      some (jsToString (Json.obj [(("a"), Json.num 1)])) :=
  (c4_amended c4wrule c4wdata (Json.obj [(("a"), Json.num 1)]) ("x") ("o")
    rfl rfl rfl rfl).1

/-- Concrete rule for claim C5: ttl 0 with the shared remote descriptor. -/
def c5rule : ReplaceRule :=
  { api := some cfgApi, cache := some 0, mode := some kEnv,
    mappings := some [(("h"), ("p"))] }

/-- Shared cache already holding a live entry for the descriptor of
c5rule (written earlier by some other rule with a positive ttl). -/
def c5cache0 : Cache :=
  [(stringifyApi cfgApi, { data := Json.str ("cached"), expires := 100 })]

/-- Claim C5 counterexample: the spec states that with ttl 0 every
resolution call triggers a fresh fetch and no previously cached value is
returned even when an entry for the same source descriptor exists in the
shared cache.  The source consults the cache before looking at the rule's
ttl, so at time 50 the live shared entry is returned, no fetch is performed
(first component false), and the cache is untouched. -/
theorem c5_counterexample :
    fetchReplacementData c5rule c5cache0 50 (some (Json.str ("fresh"))) =
      (false, some (Json.str ("cached")), c5cache0) :=
  rfl

/-- Claim C5 amended: with ttl 0 (or unset) no cache entry is ever written,
and whenever no live entry exists for the rule's source descriptor the call
performs a fresh fetch and returns the network outcome unchanged; a live
entry stored under the same descriptor by another rule is however returned
without fetching. -/
theorem c5_amended (rule : ReplaceRule) (a : ApiConfig) (u : String)
    (c : Cache) (now : Int) (network : Option Json)
    (hapi : rule.api = some a) (hurl : a.url = some u) (hu : ¬ u = kEmpty)
    (hc : rule.cache = none ∨ rule.cache = some 0)
    (hmiss : ∀ e, cacheGet c (stringifyApi a) = some e → e.expires ≤ now) :
    fetchReplacementData rule c now network = (true, network, c) := by
  have httl : (rule.cache.getD 0) * 1000 = 0 := by
    rcases hc with h | h <;> simp [h]
  unfold fetchReplacementData
  simp only [hapi, hurl, if_neg hu]
  rcases hcg : cacheGet c (stringifyApi a) with _ | e
  · simp only [hcg]
    cases network with
    | none => rfl
    | some d => simp [httl]
  · have hle := hmiss e hcg
    simp only [hcg, if_neg (not_lt.mpr hle)]
    cases network with
    | none => rfl
    | some d => simp [httl]

/-- Concrete rule for the claim C5 witness: ttl 0, empty shared cache. -/
def c5wrule : ReplaceRule :=
  { api := some cfgApi, cache := some 0, mode := some kEnv,
    mappings := some [(("h"), ("p"))] }

/-- Witness for the amended claim C5 at a concrete input with an empty
cache: the call fetches and writes nothing. -/
theorem c5_amended_witness :
    fetchReplacementData c5wrule [] 0 (some (Json.str ("fresh"))) =
      (true, some (Json.str ("fresh")), []) :=
  c5_amended c5wrule cfgApi ("https://cfg") [] 0 (some (Json.str ("fresh")))
    rfl rfl (by decide) (Or.inr rfl)
    (by intro e h; simp [cacheGet] at h)

/-- Concrete rule for claim C6: the files field is absent. -/
def c6rule : ReplaceRule := { mode := some kEnv }

/-- Claim C6 counterexample: the spec states a rule lacking the files field
never causes the request to fail and simply yields no match.  In the source
the matcher calls rule.files.some on undefined, the TypeError escapes the
handler, and the request fails. -/
theorem c6_counterexample :
    handleContentPhase ("/a") ("body") [c6rule] [] 0 none scan0 =
      Except.error () :=
  rfl

/-- Claim C6 amended: absent rule fields other than files behave as empty
at use-time, and a rule whose files field is an empty array yields no match
and the matcher proceeds to the remaining rules; a rule whose files field is
absent however makes the matcher throw and the request fail. -/
theorem c6_amended (p : String) (r : ReplaceRule) (rs : List ReplaceRule)
    (h : r.files = some []) :
    findMatchingRule p (r :: rs) = findMatchingRule p rs := by
  simp [findMatchingRule, findRuleAux, ruleMatches, h]

/-- Concrete rule for the claim C6 witness: empty files array. -/
def c6wrule : ReplaceRule := { files := some [], mode := some kEnv }

/-- Witness for the amended claim C6: the empty-files rule is skipped and
the empty remainder yields no match. -/
theorem c6_amended_witness :
    findMatchingRule ("/a") (c6wrule :: []) = Except.ok none :=
  (c6_amended ("/a") c6wrule [] rfl).trans rfl

/-- Iteration lemma: the first rule that matches, after a prefix of rules
that do not, is the one returned. -/
theorem findRuleAux_append (np : String) (pre post : List ReplaceRule)
    (r : ReplaceRule)
    (hpre : ∀ r' ∈ pre, ruleMatches np r' = Except.ok false)
    (hr : ruleMatches np r = Except.ok true) :
    findRuleAux np (pre ++ r :: post) = Except.ok (some r) := by
  induction pre with
  | nil => simp [findRuleAux, hr]
  | cons q qs ih =>
    have hq : ruleMatches np q = Except.ok false := hpre q (by simp)
    simp only [List.cons_append, findRuleAux, hq]
    exact ih (fun r' h => hpre r' (by simp [h]))

/-- Claim C7: the matcher iterates rules in configuration order and returns
the first rule any of whose file entries matches; with an earlier and a
later rule both matching the same path, the earlier rule is returned and
the whole replacement phase behaves exactly as if the later rules were not
configured, so their effects never appear in the output. -/
theorem c7_first_match_wins (p content : String) (pre post : List ReplaceRule)
    (r : ReplaceRule) (cache : Cache) (now : Int) (network : Option Json)
    (regexScan : String → String → Option (List RawChunk))
    (hpre : ∀ r' ∈ pre, ruleMatches (normalizeSlash p) r' = Except.ok false)
    (hr : ruleMatches (normalizeSlash p) r = Except.ok true) :
    findMatchingRule p (pre ++ r :: post) = Except.ok (some r) ∧
    handleContentPhase p content (pre ++ r :: post) cache now network regexScan =
      handleContentPhase p content [r] cache now network regexScan := by
  have h1 : findMatchingRule p (pre ++ r :: post) = Except.ok (some r) :=
    findRuleAux_append (normalizeSlash p) pre post r hpre hr
  have h2 : findMatchingRule p [r] = Except.ok (some r) := by
    simp [findMatchingRule, findRuleAux, hr]
  exact ⟨h1, by simp [handleContentPhase, h1, h2]⟩

/-- Concrete non-matching earlier rule for the claim C7 witness. -/
def c7ruleA : ReplaceRule := { files := some ["/zzz.conf"], mode := some kEnv }

/-- Concrete first matching rule for the claim C7 witness. -/
def c7ruleB : ReplaceRule :=
  { files := some ["/app.yml"], mode := some kTemplate,
    static := some [(("name"), ("X"))] }

/-- Concrete later matching rule for the claim C7 witness. -/
def c7ruleC : ReplaceRule :=
  { files := some ["/app.yml"], mode := some kEnv,
    static := some [(("name"), ("Y"))] }

/-- Witness for claim C7: with two rules matching /app.yml the earlier one
is returned and the phase's outcome equals the single-rule outcome. -/
theorem c7_witness :
    findMatchingRule ("/app.yml") [c7ruleA, c7ruleB, c7ruleC] =
      Except.ok (some c7ruleB) ∧
    handleContentPhase ("/app.yml") (tmplText (("name").toList))
        [c7ruleA, c7ruleB, c7ruleC] [] 0 none scan0 =
      handleContentPhase ("/app.yml") (tmplText (("name").toList))
        [c7ruleB] [] 0 none scan0 :=
  c7_first_match_wins ("/app.yml") (tmplText (("name").toList)) [c7ruleA]
    [c7ruleC] c7ruleB [] 0 none scan0
    (by intro r' h; simp only [List.mem_singleton] at h; subst h; rfl) rfl

/-- Claim C8: an absent or empty configuration string, a string JSON.parse
rejects, or one parsing to a non-array, all yield the empty rule sequence,
against which the matcher finds nothing, so every request passes through;
no error escapes the parser. -/
theorem c8_parse_fail_open (cfg : Option String)
    (jsonParse : String → Option Json) (p : String)
    (h : cfg = none ∨ cfg = some kEmpty ∨
      ∃ s, cfg = some s ∧ (jsonParse s = none ∨
        ∃ j, jsonParse s = some j ∧ isJsonArray j = false)) :
    parseReplaceConfig cfg jsonParse = [] ∧
    findMatchingRule p [] = Except.ok none := by
  refine ⟨?_, rfl⟩
  rcases h with h | h | ⟨s, hs, h⟩
  · simp [parseReplaceConfig, h]
  · simp [parseReplaceConfig, h]
  · subst hs
    unfold parseReplaceConfig
    by_cases hse : s = kEmpty
    · simp [hse]
    · simp only [if_neg hse]
      rcases h with h | ⟨j, hj, hja⟩
      · simp [h]
      · rw [hj]
        cases j <;> simp_all [isJsonArray]

/-- Witness for claim C8 at the spec's own scenario: a malformed
configuration string behaves as zero rules. -/
theorem c8_witness :
    parseReplaceConfig (some ("not json")) (fun _ => none) = [] ∧
    findMatchingRule ("/config/app.yml") [] = Except.ok none :=
  c8_parse_fail_open (some ("not json")) (fun _ => none) ("/config/app.yml")
    (Or.inr (Or.inr ⟨("not json"), rfl, Or.inl rfl⟩))

/-- Lookup after store on the cache map. -/
theorem cacheGet_cacheSet (c : Cache) (k : String) (e : CacheEntry) :
    cacheGet (cacheSet c k e) k = some e := by
  induction c with
  | nil => simp [cacheSet, cacheGet]
  | cons p rest ih =>
    cases hp : p.1 == k with
    | true => simp [cacheSet, cacheGet, hp]
    | false => simp [cacheSet, cacheGet, hp, ih]

/-- Claim C9: with a positive ttl of N seconds, a first resolution call at
time T (milliseconds) against a cache holding no entry for the rule's
descriptor performs a fetch whose successful result is stored with expiry
T + 1000 N; any second call strictly before the expiry performs no fetch
and returns the cached value with the cache unchanged, and any call
strictly after the expiry performs a fresh fetch. -/
theorem c9_cache_ttl (rule : ReplaceRule) (a : ApiConfig) (u : String)
    (N : Int) (c0 : Cache) (now T2 T3 : Int) (d : Json)
    (net2 net3 : Option Json)
    (hapi : rule.api = some a) (hurl : a.url = some u) (hu : ¬ u = kEmpty)
    (hc : rule.cache = some N) (hN : 0 < N)
    (hmiss : cacheGet c0 (stringifyApi a) = none)
    (h2 : T2 < now + N * 1000) (h3 : now + N * 1000 < T3) :
    fetchReplacementData rule c0 now (some d) =
      (true, some d,
        cacheSet c0 (stringifyApi a) { data := d, expires := now + N * 1000 }) ∧
    fetchReplacementData rule
        (cacheSet c0 (stringifyApi a) { data := d, expires := now + N * 1000 })
        T2 net2 =
      (false, some d,
        cacheSet c0 (stringifyApi a) { data := d, expires := now + N * 1000 }) ∧
    (fetchReplacementData rule
        (cacheSet c0 (stringifyApi a) { data := d, expires := now + N * 1000 })
        T3 net3).1 = true := by
  have hpos : (0 : Int) < N * 1000 := by positivity
  have hset := cacheGet_cacheSet c0 (stringifyApi a)
    { data := d, expires := now + N * 1000 }
  refine ⟨?_, ?_, ?_⟩
  · unfold fetchReplacementData
    simp only [hapi, hurl, if_neg hu, hmiss, hc, Option.getD_some]
    rw [if_pos (by omega)]
  · unfold fetchReplacementData
    simp only [hapi, hurl, if_neg hu, hset]
    rw [if_pos (by omega : T2 < now + N * 1000)]
  · unfold fetchReplacementData
    simp only [hapi, hurl, if_neg hu, hset]
    rw [if_neg (by omega : ¬ T3 < now + N * 1000)]
    cases net3 with
    | none => rfl
    | some d3 =>
      simp only [hc, Option.getD_some]
      rw [if_pos (by omega)]

/-- Concrete rule for the claim C9 witness: ttl two seconds. -/
def c9wrule : ReplaceRule :=
  { api := some cfgApi, cache := some 2, mode := some kEnv,
    files := some ["/f"], mappings := some [(("h"), ("p"))] }

/-- Witness for claim C9 at concrete times: first fetch at 1000 ms, cached
hit at 2500 ms, fresh fetch at 3500 ms (expiry 3000 ms). -/
theorem c9_witness :
    fetchReplacementData c9wrule [] 1000 (some (Json.str ("v"))) =
      (true, some (Json.str ("v")),
        cacheSet [] (stringifyApi cfgApi)
          { data := Json.str ("v"), expires := 1000 + 2 * 1000 }) ∧
    fetchReplacementData c9wrule
        (cacheSet [] (stringifyApi cfgApi)
          { data := Json.str ("v"), expires := 1000 + 2 * 1000 }) 2500 none =
      (false, some (Json.str ("v")),
        cacheSet [] (stringifyApi cfgApi)
          { data := Json.str ("v"), expires := 1000 + 2 * 1000 }) ∧
    (fetchReplacementData c9wrule
        (cacheSet [] (stringifyApi cfgApi)
          { data := Json.str ("v"), expires := 1000 + 2 * 1000 }) 3500 none).1 =
      true :=
  c9_cache_ttl c9wrule cfgApi ("https://cfg") 2 [] 1000 2500 3500
    (Json.str ("v")) none none rfl rfl (by decide) rfl (by decide) rfl
    (by decide) (by decide)

/-- Claim C10: a rule whose mode field is absent or none of env, template
and regex performs no substitution: the engine returns the content
unchanged and signals no error, whatever the resolved mapping, cache and
network state. -/
theorem c10_unknown_mode_passthrough (content : String) (rule : ReplaceRule)
    (cache : Cache) (now : Int) (network : Option Json)
    (regexScan : String → String → Option (List RawChunk))
    (h : ∀ s, rule.mode = some s → ¬ s = kEnv ∧ ¬ s = kTemplate ∧ ¬ s = kRegex) :
    (applyReplaceRule content rule cache now network regexScan).1 =
      Except.ok content := by
  cases hm : rule.mode with
  | none => simp [applyReplaceRule, hm]
  | some s =>
    obtain ⟨h1, h2, h3⟩ := h s hm
    simp [applyReplaceRule, hm, h1, h2, h3]

/-- Concrete rule for the claim C10 witness: unrecognized mode string. -/
def c10rule : ReplaceRule :=
  { mode := some ("weird"), static := some [(("a"), ("b"))],
    files := some ["/x"] }

/-- Witness for claim C10: with the unrecognized mode the env placeholder
in the content survives untouched and no error is signalled. -/
theorem c10_witness :
    (applyReplaceRule (envText ("a")) c10rule [] 0 none scan0).1 =
      Except.ok (envText ("a")) :=
  c10_unknown_mode_passthrough (envText ("a")) c10rule [] 0 none scan0
    (by intro s hs
        simp only [c10rule] at hs
        injection hs with h
        subst h
        exact ⟨by decide, by decide, by decide⟩)

end GHRaw
